import Mathlib

/-!
Shallow embedding of the Product-Recommendation Express/MongoDB server
(`src/index.js`).  The repository contains two near-duplicate route sets:
an earlier variant (first half of the file) and a hardened variant
(second half).  Both are embedded, in namespaces `Earlier` and
`Hardened`.

Modelling conventions:
* A BSON document is an association list `List (String × Value)`; the
  first binding of a key is its value (JS objects cannot repeat keys).
* ObjectId values are wrapped 24-character hex strings (`Value.vOid`).
  `new ObjectId(s)` succeeds exactly on valid hex-24 strings; for
  `null` / `undefined` / numeric input the driver generates a fresh
  random id, which matches no stored document, and for other invalid
  input it throws (`OidResult.err`, surfacing as a storage fault when
  caught).
* The store itself never fails; only faults the handlers themselves
  provoke (an ObjectId constructor throw) are modelled, as
  `Response.serverError` when the handler catches them and
  `Response.unhandled` when the throw escapes the handler.
* `insertOne` appends the document, adding a store-assigned `_id` when
  the body has none; `updateOne` touches the first matching document;
  `deleteOne` removes the first matching document.  Mongo keeps `_id`
  values unique, so "first matching" is the unique match in reachable
  states.
-/

namespace ProductRec

/-- BSON-style value stored in a document field. -/
inductive Value where
  | vStr : String → Value
  | vInt : Int → Value
  | vOid : String → Value
  | vDate : Nat → Value
  | vBool : Bool → Value
  | vNull : Value
  deriving DecidableEq

/-- A schema-less document: an association list of fields. -/
abbrev Doc := List (String × Value)

/-- Value of field `k` in document `d` (first binding wins). -/
def getField (d : Doc) (k : String) : Option Value :=
  (d.find? (fun p => p.1 = k)).map Prod.snd

/-- JS assignment / Mongo field write: overwrite the binding of `k`
in place when present, append it otherwise. -/
def setField (d : Doc) (k : String) (v : Value) : Doc :=
  if d.any (fun p => p.1 = k) then
    d.map (fun p => if p.1 = k then (k, v) else p)
  else
    d ++ [(k, v)]

/-- insertOne assigns a fresh `_id` when the body carries none. -/
def withId (d : Doc) (freshId : String) : Doc :=
  if (getField d "_id").isSome then d else setField d "_id" (Value.vOid freshId)

/-- JS truthiness of a field value (`!x` checks in the handlers). -/
def truthy : Option Value → Bool
  | none => false
  | some Value.vNull => false
  | some (Value.vBool b) => b
  | some (Value.vStr s) => decide (s ≠ "")
  | some (Value.vInt n) => decide (n ≠ 0)
  | some (Value.vOid _) => true
  | some (Value.vDate _) => true

def isHexChar (c : Char) : Bool :=
  c.isDigit || (decide ('a' ≤ c) && decide (c ≤ 'f')) || (decide ('A' ≤ c) && decide (c ≤ 'F'))

/-- `ObjectId.isValid` on a string: 24 hex characters. -/
def isValidObjectId (s : String) : Bool :=
  decide (s.length = 24) && s.data.all isHexChar

/-- `ObjectId.isValid` on an arbitrary field value.  JSON request bodies
only carry strings in identity positions; non-string values are
modelled as rejected. -/
def objectIdIsValid : Value → Bool
  | Value.vOid _ => true
  | Value.vStr s => isValidObjectId s
  | _ => false

/-- Outcome of `new ObjectId(x)`. -/
inductive OidResult where
  | oid : String → OidResult
  | fresh : OidResult
  | err : OidResult
  deriving DecidableEq

/-- `new ObjectId(x)`: deterministic id for ObjectId instances and valid
hex-24 strings; a fresh random id (matching no stored document) for
`undefined` / `null` / numbers; a thrown `BSONError` otherwise. -/
def newObjectId : Option Value → OidResult
  | some (Value.vOid s) => .oid s
  | some (Value.vStr s) => if isValidObjectId s then .oid s else .err
  | none => .fresh
  | some Value.vNull => .fresh
  | some (Value.vInt _) => .fresh
  | some (Value.vBool _) => .err
  | some (Value.vDate _) => .err

/-- The two collections of the `productDb` database. -/
structure DB where
  products : List Doc
  recommendations : List Doc
  deriving DecidableEq

/-- Filter `{ _id: new ObjectId(id) }`. -/
def docHasId (d : Doc) (id : String) : Bool :=
  decide (getField d "_id" = some (Value.vOid id))

/-- `updateOne` without upsert: rewrite the first document matching `p`. -/
def updateFirst (docs : List Doc) (p : Doc → Bool) (f : Doc → Doc) : List Doc :=
  match docs with
  | [] => []
  | d :: rest => if p d then f d :: rest else d :: updateFirst rest p f

/-- `deleteOne`: remove the first document matching `p`. -/
def deleteFirst (docs : List Doc) (p : Doc → Bool) : List Doc :=
  match docs with
  | [] => []
  | d :: rest => if p d then rest else d :: deleteFirst rest p

/-- Mongo `$inc` on field `k`: add to a numeric value, create the field
when absent.  (On a non-numeric value Mongo raises a write error; no
handler reaches that case in the properties below.) -/
def applyInc (d : Doc) (k : String) (delta : Int) : Doc :=
  match getField d k with
  | some (Value.vInt n) => setField d k (Value.vInt (n + delta))
  | some _ => d
  | none => setField d k (Value.vInt delta)

/-- Mongo `$set` with a patch document: field-level overwrite. -/
def applySet (d : Doc) (patch : Doc) : Doc :=
  patch.foldl (fun acc kv => setField acc kv.1 kv.2) d

/-- Output record of the `$lookup`/`$unwind`/`$project` pipeline:
projected recommendation fields plus the projected `queryDetails`
subdocument. -/
structure EnrichedRec where
  recFields : Doc
  queryDetails : Doc
  deriving DecidableEq

/-- The final `$project` stage of `/myqueries/recommendations`. -/
def projectRec (r : Doc) (p : Doc) : EnrichedRec :=
  { recFields :=
      ["_id", "recommenderEmail", "boycottingReason", "recommendationText",
        "createdAt"].filterMap (fun k => (getField r k).map (fun v => (k, v)))
    queryDetails :=
      ["productName", "queryTitle"].filterMap (fun k => (getField p k).map (fun v => (k, v))) }

/-- The aggregation pipeline of `/myqueries/recommendations`:
`$match` (queryId in the id set, recommenderEmail differs), `$lookup`
of the parent product by `_id`, `$unwind` (inner-join: drop matches
with no parent), `$project`. -/
def aggregatePipeline (db : DB) (queryIds : List Value) (email : String) : List EnrichedRec :=
  ((db.recommendations.filter (fun r =>
      (match getField r "queryId" with
        | some v => queryIds.any (fun w => decide (v = w))
        | none => false)
      && !(decide (getField r "recommenderEmail" = some (Value.vStr email))))).flatMap
    (fun r =>
      (db.products.filter (fun p => decide (getField p "_id" = getField r "queryId"))).map
        (fun p => projectRec r p)))

/-- HTTP responses the embedded routes can produce. -/
inductive Response where
  | okDoc : Doc → Response
  | okList : List Doc → Response
  | okEnriched : List EnrichedRec → Response
  | okInsert : String → Response
  | okUpdate : Bool → Response
  | okDelete : Nat → Response
  | badRequest : String → Response
  | notFound : String → Response
  | serverError : Response
  | unhandled : Response
  deriving DecidableEq

/-! ## Hardened route set (second half of `src/index.js`) -/

namespace Hardened

/-- GET `/products/:id` — validates the id before querying the store. -/
def getProduct (id : String) (db : DB) : Response :=
  if !(isValidObjectId id) then .badRequest "Invalid product ID"
  else
    match db.products.find? (fun d => docHasId d id) with
    | none => .notFound "Product not found"
    | some p => .okDoc p

/-- POST `/products` — rejects a falsy `userEmail`, then inserts the
body with `recommendationCount` forced to 0 (spread then overwrite). -/
def createProduct (body : Doc) (freshId : String) (db : DB) : Response × DB :=
  if !(truthy (getField body "userEmail")) then
    (.badRequest "userEmail is required", db)
  else
    (.okInsert freshId,
      { db with products :=
          db.products ++ [withId (setField body "recommendationCount" (Value.vInt 0)) freshId] })

/-- PUT `/products/:id` — validates the id, then `updateOne` with
`{ $set: body }` and `{ upsert: true }`: `$set` into the first matching
document, or, with no match, a new document built from the filter
identity plus the patch. -/
def updateProduct (id : String) (patch : Doc) (db : DB) : Response × DB :=
  if !(isValidObjectId id) then (.badRequest "Invalid product ID", db)
  else if (db.products.find? (fun d => docHasId d id)).isSome then
    (.okUpdate true,
      { db with products :=
          updateFirst db.products (fun d => docHasId d id) (fun d => applySet d patch) })
  else
    (.okUpdate false,
      { db with products := db.products ++ [applySet [("_id", Value.vOid id)] patch] })

/-- DELETE `/products/:id` — validates the id, then `deleteOne` on the
products collection only. -/
def deleteProduct (id : String) (db : DB) : Response × DB :=
  if !(isValidObjectId id) then (.badRequest "Invalid product ID", db)
  else
    (.okDelete 1, { db with products := deleteFirst db.products (fun d => docHasId d id) })

/-- POST `/recommendations` — rejects a falsy or invalid `queryId`;
otherwise inserts the body with `queryId` normalized to an ObjectId and
`createdAt` set to the current time, then increments the matching
product counter with `$inc`. -/
def createRecommendation (body : Doc) (freshId : String) (now : Nat) (db : DB) :
    Response × DB :=
  if !(truthy (getField body "queryId"))
      || !((getField body "queryId").elim false objectIdIsValid) then
    (.badRequest "Invalid or missing queryId", db)
  else
    match newObjectId (getField body "queryId") with
    | OidResult.oid s =>
        (.okInsert freshId,
          { products :=
              updateFirst db.products (fun d => docHasId d s)
                (fun d => applyInc d "recommendationCount" 1)
            recommendations :=
              db.recommendations
                ++ [withId (setField (setField body "queryId" (Value.vOid s))
                      "createdAt" (Value.vDate now)) freshId] })
    | _ => (.unhandled, db)

/-- DELETE `/recommendations/:id` — validates the id, looks the
recommendation up (404 when absent), deletes it, then decrements the
counter of the product named by the stored `queryId`. -/
def deleteRecommendation (id : String) (db : DB) : Response × DB :=
  if !(isValidObjectId id) then (.badRequest "Invalid recommendation ID", db)
  else
    match db.recommendations.find? (fun d => docHasId d id) with
    | none => (.notFound "Recommendation not found", db)
    | some r =>
        let recs := deleteFirst db.recommendations (fun d => docHasId d id)
        match newObjectId (getField r "queryId") with
        | OidResult.oid q =>
            (.okDelete 1,
              { products :=
                  updateFirst db.products (fun d => docHasId d q)
                    (fun d => applyInc d "recommendationCount" (-1))
                recommendations := recs })
        | OidResult.fresh => (.okDelete 1, { db with recommendations := recs })
        | OidResult.err => (.unhandled, { db with recommendations := recs })

/-- GET `/myqueries/recommendations` — requires the email, finds the
ids of products owned by the user, short-circuits to `[]` when there
are none, and otherwise runs the aggregation pipeline. -/
def myqueries (email? : Option String) (db : DB) : Response :=
  match email? with
  | none => .badRequest "Missing user email"
  | some email =>
      if email = "" then .badRequest "Missing user email"
      else
        let userQueries :=
          db.products.filter (fun p => decide (getField p "userEmail" = some (Value.vStr email)))
        let queryIds := userQueries.filterMap (fun q => getField q "_id")
        if queryIds.isEmpty then .okEnriched []
        else .okEnriched (aggregatePipeline db queryIds email)

end Hardened

/-! ## Earlier route set (first half of `src/index.js`) -/

namespace Earlier

/-- GET `/products/:id` — no validity check: `new ObjectId(id)` throws
inside the try block on a malformed id and surfaces as a 500. -/
def getProduct (id : String) (db : DB) : Response :=
  if !(isValidObjectId id) then .serverError
  else
    match db.products.find? (fun d => docHasId d id) with
    | none => .notFound "Product not found"
    | some p => .okDoc p

/-- POST `/products` — inserts the request body verbatim: no
`userEmail` requirement and no `recommendationCount` initialization. -/
def createProduct (body : Doc) (freshId : String) (db : DB) : Response × DB :=
  (.okInsert freshId, { db with products := db.products ++ [withId body freshId] })

/-- PUT `/products/:id` — same upsert-merge as the hardened variant,
but `new ObjectId(id)` runs before the try block: a malformed id throws
out of the handler and no response is sent. -/
def updateProduct (id : String) (patch : Doc) (db : DB) : Response × DB :=
  if !(isValidObjectId id) then (.unhandled, db)
  else if (db.products.find? (fun d => docHasId d id)).isSome then
    (.okUpdate true,
      { db with products :=
          updateFirst db.products (fun d => docHasId d id) (fun d => applySet d patch) })
  else
    (.okUpdate false,
      { db with products := db.products ++ [applySet [("_id", Value.vOid id)] patch] })

/-- DELETE `/products/:id` — `new ObjectId(id)` throws inside the try
block on a malformed id (500); otherwise `deleteOne` on products. -/
def deleteProduct (id : String) (db : DB) : Response × DB :=
  if !(isValidObjectId id) then (.serverError, db)
  else
    (.okDelete 1, { db with products := deleteFirst db.products (fun d => docHasId d id) })

/-- POST `/recommendations` — inserts the body verbatim (no `queryId`
normalization, no `createdAt`), then builds an ObjectId from the raw
`queryId` for the counter update; an invalid `queryId` string throws
after the insert already happened (500 with the document inserted). -/
def createRecommendation (body : Doc) (freshId : String) (db : DB) : Response × DB :=
  let db1 := { db with recommendations := db.recommendations ++ [withId body freshId] }
  match newObjectId (getField body "queryId") with
  | OidResult.oid s =>
      let prods :=
        updateFirst db1.products (fun d => docHasId d s)
          (fun d => applyInc d "recommendationCount" 1)
      (.okInsert freshId, { db1 with products := prods })
  | OidResult.fresh => (.okInsert freshId, db1)
  | OidResult.err => (.serverError, db1)

/-- DELETE `/recommendations/:id` — no id validity check (a malformed
id throws inside the try block, 500); otherwise identical to the
hardened variant apart from the response body shape. -/
def deleteRecommendation (id : String) (db : DB) : Response × DB :=
  if !(isValidObjectId id) then (.serverError, db)
  else
    match db.recommendations.find? (fun d => docHasId d id) with
    | none => (.notFound "Recommendation not found", db)
    | some r =>
        let recs := deleteFirst db.recommendations (fun d => docHasId d id)
        match newObjectId (getField r "queryId") with
        | OidResult.oid q =>
            (.okDelete 1,
              { products :=
                  updateFirst db.products (fun d => docHasId d q)
                    (fun d => applyInc d "recommendationCount" (-1))
                recommendations := recs })
        | OidResult.fresh => (.okDelete 1, { db with recommendations := recs })
        | OidResult.err => (.serverError, { db with recommendations := recs })

/-- GET `/myqueries/recommendations` — identical logic to the hardened
variant (the earlier `find` projects only `_id`; only the ids are used
either way). -/
def myqueries (email? : Option String) (db : DB) : Response :=
  match email? with
  | none => .badRequest "Missing user email"
  | some email =>
      if email = "" then .badRequest "Missing user email"
      else
        let userQueries :=
          db.products.filter (fun p => decide (getField p "userEmail" = some (Value.vStr email)))
        let queryIds := userQueries.filterMap (fun q => getField q "_id")
        if queryIds.isEmpty then .okEnriched []
        else .okEnriched (aggregatePipeline db queryIds email)

end Earlier

/-- A valid ObjectId hex string used by concrete instantiations. -/
def oidA : String := "aaaaaaaaaaaaaaaaaaaaaaaa"

/-- A second valid ObjectId hex string. -/
def oidB : String := "bbbbbbbbbbbbbbbbbbbbbbbb"

/-- The empty database. -/
def dbEmpty : DB := { products := [], recommendations := [] }

/-! ## Association-list lemmas -/

theorem setField_cons_eq {p : String × Value} {d : Doc} {k : String} {v : Value}
    (hp : p.1 = k) :
    setField (p :: d) k v = (k, v) :: d.map (fun q => if q.1 = k then (k, v) else q) := by
  simp [setField, hp]

theorem setField_cons_ne {p : String × Value} {d : Doc} {k : String} {v : Value}
    (hp : ¬p.1 = k) :
    setField (p :: d) k v = p :: setField d k v := by
  by_cases h : d.any (fun q => decide (q.1 = k))
  · simp [setField, hp, h]
  · simp [setField, hp, h]

theorem getField_nil (k : String) : getField [] k = none := rfl

theorem getField_cons (p : String × Value) (d : Doc) (k : String) :
    getField (p :: d) k = if p.1 = k then some p.2 else getField d k := by
  by_cases hp : p.1 = k
  · unfold getField
    rw [List.find?_cons_of_pos _ (by simpa using hp), if_pos hp]
    rfl
  · unfold getField
    rw [List.find?_cons_of_neg _ (by simpa using hp), if_neg hp]

theorem getField_map_rewrite {d : Doc} {k k2 : String} {w : Value} (hkk : ¬k = k2) :
    getField (d.map (fun q => if q.1 = k2 then (k2, w) else q)) k = getField d k := by
  induction d with
  | nil => rfl
  | cons p rest ih =>
      simp only [List.map_cons]
      by_cases hp : p.1 = k2
      · rw [if_pos hp, getField_cons, getField_cons,
          if_neg (show ¬(k2, w).1 = k from fun hc => hkk hc.symm),
          if_neg (show ¬p.1 = k from fun hc => hkk (hc.symm.trans hp))]
        exact ih
      · rw [if_neg hp, getField_cons, getField_cons]
        by_cases hpk : p.1 = k
        · rw [if_pos hpk, if_pos hpk]
        · rw [if_neg hpk, if_neg hpk]
          exact ih

theorem getField_setField_self (d : Doc) (k : String) (v : Value) :
    getField (setField d k v) k = some v := by
  induction d with
  | nil =>
      have h0 : setField ([] : Doc) k v = [(k, v)] := by simp [setField]
      rw [h0, getField_cons, if_pos rfl]
  | cons p rest ih =>
      by_cases hp : p.1 = k
      · rw [setField_cons_eq hp, getField_cons, if_pos rfl]
      · rw [setField_cons_ne hp, getField_cons, if_neg hp]
        exact ih

theorem getField_setField_ne {d : Doc} {k k2 : String} {v : Value} (hkk : ¬k = k2) :
    getField (setField d k2 v) k = getField d k := by
  induction d with
  | nil =>
      have h0 : setField ([] : Doc) k2 v = [(k2, v)] := by simp [setField]
      rw [h0, getField_cons, if_neg (show ¬(k2, v).1 = k from fun hc => hkk hc.symm)]
  | cons p rest ih =>
      by_cases hp : p.1 = k2
      · rw [setField_cons_eq hp, getField_cons, getField_cons,
          if_neg (show ¬(k2, v).1 = k from fun hc => hkk hc.symm),
          if_neg (show ¬p.1 = k from fun hc => hkk (hc.symm.trans hp))]
        exact getField_map_rewrite hkk
      · rw [setField_cons_ne hp, getField_cons, getField_cons]
        by_cases hpk : p.1 = k
        · rw [if_pos hpk, if_pos hpk]
        · rw [if_neg hpk, if_neg hpk]
          exact ih

theorem getField_withId_ne {d : Doc} {fid k : String} (hk : ¬k = "_id") :
    getField (withId d fid) k = getField d k := by
  unfold withId
  split
  · rfl
  · exact getField_setField_ne hk

theorem docHasId_applyInc {d : Doc} {k id : String} {delta : Int}
    (hk : ¬("_id" : String) = k) :
    docHasId (applyInc d k delta) id = docHasId d id := by
  unfold docHasId applyInc
  cases h : getField d k with
  | none => rw [getField_setField_ne hk]
  | some v =>
      cases v with
      | vInt n => rw [getField_setField_ne hk]
      | vStr s => rfl
      | vOid s => rfl
      | vDate t => rfl
      | vBool b => rfl
      | vNull => rfl

theorem getField_applyInc {d : Doc} {k : String} {n : Int}
    (h : getField d k = some (Value.vInt n)) (delta : Int) :
    getField (applyInc d k delta) k = some (Value.vInt (n + delta)) := by
  unfold applyInc
  rw [h]
  exact getField_setField_self d k (Value.vInt (n + delta))

theorem updateFirst_of_find?_none {docs : List Doc} {p : Doc → Bool} {f : Doc → Doc}
    (h : docs.find? p = none) : updateFirst docs p f = docs := by
  induction docs with
  | nil => rfl
  | cons d rest ih =>
      by_cases hd : p d = true
      · rw [List.find?_cons_of_pos _ hd] at h
        cases h
      · rw [List.find?_cons_of_neg _ hd] at h
        unfold updateFirst
        rw [if_neg hd, ih h]

theorem find?_updateFirst {docs : List Doc} {p : Doc → Bool} {f : Doc → Doc} {d : Doc}
    (hpf : ∀ x, p x = true → p (f x) = true)
    (h : docs.find? p = some d) :
    (updateFirst docs p f).find? p = some (f d) := by
  induction docs with
  | nil => cases h
  | cons d0 rest ih =>
      by_cases hd : p d0 = true
      · rw [List.find?_cons_of_pos _ hd] at h
        injection h with h
        subst h
        unfold updateFirst
        rw [if_pos hd]
        exact List.find?_cons_of_pos _ (hpf d0 hd)
      · rw [List.find?_cons_of_neg _ hd] at h
        unfold updateFirst
        rw [if_neg hd, List.find?_cons_of_neg _ hd]
        exact ih h

theorem deleteFirst_of_find?_some {docs : List Doc} {p : Doc → Bool} {d : Doc}
    (h : docs.find? p = some d) :
    ∃ l1 l2, docs = l1 ++ d :: l2 ∧ (∀ x ∈ l1, p x = false) ∧
      deleteFirst docs p = l1 ++ l2 := by
  induction docs with
  | nil => cases h
  | cons d0 rest ih =>
      by_cases hd : p d0 = true
      · rw [List.find?_cons_of_pos _ hd] at h
        injection h with h
        subst h
        refine ⟨[], rest, rfl, by simp, ?_⟩
        unfold deleteFirst
        rw [if_pos hd]
        rfl
      · rw [List.find?_cons_of_neg _ hd] at h
        obtain ⟨l1, l2, hsplit, hl1, hdel⟩ := ih h
        refine ⟨d0 :: l1, l2, by rw [List.cons_append, hsplit], ?_, ?_⟩
        · intro x hx
          rcases List.mem_cons.mp hx with rfl | hx2
          · simp at hd
            exact hd
          · exact hl1 x hx2
        · unfold deleteFirst
          rw [if_neg hd, hdel]
          rfl

theorem mem_deleteFirst {docs : List Doc} {p : Doc → Bool} {x : Doc}
    (h : x ∈ deleteFirst docs p) : x ∈ docs := by
  induction docs with
  | nil => simp [deleteFirst] at h
  | cons d rest ih =>
      unfold deleteFirst at h
      by_cases hd : p d = true
      · rw [if_pos hd] at h
        exact List.mem_cons_of_mem _ h
      · rw [if_neg hd] at h
        rcases List.mem_cons.mp h with rfl | h2
        · exact List.mem_cons_self _ _
        · exact List.mem_cons_of_mem _ (ih h2)

theorem mem_deleteFirst_of_ne {docs : List Doc} {p : Doc → Bool} {x : Doc}
    (hx : x ∈ docs) (hp : p x = false) : x ∈ deleteFirst docs p := by
  induction docs with
  | nil => cases hx
  | cons d rest ih =>
      unfold deleteFirst
      by_cases hd : p d = true
      · rw [if_pos hd]
        rcases List.mem_cons.mp hx with rfl | h2
        · rw [hp] at hd
          cases hd
        · exact h2
      · rw [if_neg hd]
        rcases List.mem_cons.mp hx with rfl | h2
        · exact List.mem_cons_self _ _
        · exact List.mem_cons_of_mem _ (ih h2)

theorem applySet_cons (d : Doc) (q : String × Value) (rest : Doc) :
    applySet d (q :: rest) = applySet (setField d q.1 q.2) rest := rfl

theorem getField_applySet_not_key {patch : Doc} {k : String}
    (h : k ∉ patch.map Prod.fst) (d : Doc) :
    getField (applySet d patch) k = getField d k := by
  induction patch generalizing d with
  | nil => rfl
  | cons q rest ih =>
      have hk : ¬k = q.1 := by
        intro hc
        exact h (by rw [hc]; exact List.mem_map_of_mem _ (List.mem_cons_self _ _))
      have hrest : k ∉ rest.map Prod.fst := by
        intro hm
        exact h (by simp only [List.map_cons]; exact List.mem_cons_of_mem _ hm)
      rw [applySet_cons, ih hrest, getField_setField_ne hk]

theorem getField_applySet_key {patch : Doc} {k : String} {v : Value}
    (hnd : (patch.map Prod.fst).Nodup) (h : (k, v) ∈ patch) (d : Doc) :
    getField (applySet d patch) k = some v := by
  induction patch generalizing d with
  | nil => cases h
  | cons q rest ih =>
      simp only [List.map_cons] at hnd
      rw [applySet_cons]
      rcases List.mem_cons.mp h with rfl | h2
      · have hrest : k ∉ rest.map Prod.fst := (List.nodup_cons.mp hnd).1
        rw [getField_applySet_not_key hrest, getField_setField_self]
      · exact ih (List.nodup_cons.mp hnd).2 h2 _

theorem valid_ne_empty {s : String} (h : isValidObjectId s = true) : ¬s = "" := by
  intro hc
  subst hc
  exact absurd h (by decide)

theorem getField_filterMapProj_not_mem {r : Doc} {ks : List String} {k : String}
    (h : k ∉ ks) :
    getField (ks.filterMap (fun k2 => (getField r k2).map (fun v => (k2, v)))) k = none := by
  induction ks with
  | nil => rfl
  | cons k0 rest ih =>
      have hk : ¬k0 = k := fun hc => h (hc ▸ List.mem_cons_self _ _)
      have hrest : k ∉ rest := fun hm => h (List.mem_cons_of_mem _ hm)
      rw [List.filterMap_cons]
      cases hg : getField r k0 with
      | none => exact ih hrest
      | some v =>
          simp only [Option.map_some']
          rw [getField_cons, if_neg hk]
          exact ih hrest

theorem getField_filterMapProj_mem {r : Doc} {ks : List String} {k : String}
    (hk : k ∈ ks) (hnd : ks.Nodup) :
    getField (ks.filterMap (fun k2 => (getField r k2).map (fun v => (k2, v)))) k
      = getField r k := by
  induction ks with
  | nil => cases hk
  | cons k0 rest ih =>
      rw [List.filterMap_cons]
      rcases List.mem_cons.mp hk with rfl | h2
      · have hrest : k ∉ rest := (List.nodup_cons.mp hnd).1
        cases hg : getField r k with
        | none =>
            simp only [Option.map_none']
            exact getField_filterMapProj_not_mem hrest
        | some v =>
            simp only [Option.map_some']
            rw [getField_cons, if_pos rfl]
      · have hk0 : ¬k0 = k := by
          intro hc
          subst hc
          exact (List.nodup_cons.mp hnd).1 h2
        cases hg : getField r k0 with
        | none =>
            simp only [Option.map_none']
            exact ih h2 (List.nodup_cons.mp hnd).2
        | some v =>
            simp only [Option.map_some']
            rw [getField_cons, if_neg hk0]
            exact ih h2 (List.nodup_cons.mp hnd).2

theorem projectRec_recommenderEmail (r p : Doc) :
    getField (projectRec r p).recFields "recommenderEmail"
      = getField r "recommenderEmail" := by
  unfold projectRec
  exact getField_filterMapProj_mem (by simp) (by decide)

/-! ## Success-path characterizations of the handlers -/

theorem hardened_createRecommendation_success (body : Doc) (freshId : String) (now : Nat)
    (db : DB) (s : String)
    (hq : getField body "queryId" = some (Value.vStr s)) (hv : isValidObjectId s = true) :
    Hardened.createRecommendation body freshId now db =
      (.okInsert freshId,
        { products :=
            updateFirst db.products (fun d => docHasId d s)
              (fun d => applyInc d "recommendationCount" 1)
          recommendations :=
            db.recommendations
              ++ [withId (setField (setField body "queryId" (Value.vOid s))
                    "createdAt" (Value.vDate now)) freshId] }) := by
  have hne : ¬s = "" := valid_ne_empty hv
  unfold Hardened.createRecommendation
  rw [hq]
  simp [truthy, hne, objectIdIsValid, hv, newObjectId]

theorem earlier_createRecommendation_success (body : Doc) (freshId : String)
    (db : DB) (s : String)
    (hq : getField body "queryId" = some (Value.vStr s)) (hv : isValidObjectId s = true) :
    Earlier.createRecommendation body freshId db =
      (.okInsert freshId,
        { products :=
            updateFirst db.products (fun d => docHasId d s)
              (fun d => applyInc d "recommendationCount" 1)
          recommendations := db.recommendations ++ [withId body freshId] }) := by
  unfold Earlier.createRecommendation
  rw [hq]
  simp [newObjectId, hv]

theorem hardened_deleteRecommendation_found (id : String) (db : DB) (r : Doc) (q : String)
    (hid : isValidObjectId id = true)
    (hr : db.recommendations.find? (fun d => docHasId d id) = some r)
    (hq : newObjectId (getField r "queryId") = OidResult.oid q) :
    Hardened.deleteRecommendation id db =
      (.okDelete 1,
        { products :=
            updateFirst db.products (fun d => docHasId d q)
              (fun d => applyInc d "recommendationCount" (-1))
          recommendations := deleteFirst db.recommendations (fun d => docHasId d id) }) := by
  unfold Hardened.deleteRecommendation
  rw [hr]
  simp [hid, hq]

theorem earlier_deleteRecommendation_found (id : String) (db : DB) (r : Doc) (q : String)
    (hid : isValidObjectId id = true)
    (hr : db.recommendations.find? (fun d => docHasId d id) = some r)
    (hq : newObjectId (getField r "queryId") = OidResult.oid q) :
    Earlier.deleteRecommendation id db =
      (.okDelete 1,
        { products :=
            updateFirst db.products (fun d => docHasId d q)
              (fun d => applyInc d "recommendationCount" (-1))
          recommendations := deleteFirst db.recommendations (fun d => docHasId d id) }) := by
  unfold Earlier.deleteRecommendation
  rw [hr]
  simp [hid, hq]

theorem myqueries_eq (email? : Option String) (db : DB) :
    Earlier.myqueries email? db = Hardened.myqueries email? db := rfl

/-! ## Claim C1 -/

/-- C1 counterexample: the claim quantifies over `createProduct` in both
route sets, but the earlier variant (`src/index.js` lines 61-70) inserts
the request body verbatim: a caller-supplied `recommendationCount` of 5
is stored as 5 rather than 0. -/
theorem c1_counterexample :
    (Earlier.createProduct
        [("userEmail", Value.vStr "a@x.com"), ("recommendationCount", Value.vInt 5)]
        oidA dbEmpty).2.products
      = [[("userEmail", Value.vStr "a@x.com"), ("recommendationCount", Value.vInt 5),
          ("_id", Value.vOid oidA)]]
    ∧ getField
        [("userEmail", Value.vStr "a@x.com"), ("recommendationCount", Value.vInt 5),
          ("_id", Value.vOid oidA)] "recommendationCount"
      = some (Value.vInt 5)
    ∧ ¬(some (Value.vInt 5) = some (Value.vInt 0)) := by
  exact ⟨by decide, by decide, by decide⟩

/-- C1 (amended): in the hardened variant, every product stored by
`createProduct` (with `userEmail` present) has `recommendationCount`
exactly 0, whatever value the caller supplied for that field; the
earlier variant inserts the body verbatim, keeping a caller-supplied
count. -/
theorem c1_theorem (body : Doc) (freshId : String) (db : DB)
    (h : truthy (getField body "userEmail") = true) :
    (∃ d, (Hardened.createProduct body freshId db).2.products = db.products ++ [d]
        ∧ getField d "recommendationCount" = some (Value.vInt 0))
    ∧ (Earlier.createProduct body freshId db).2.products
        = db.products ++ [withId body freshId] := by
  refine ⟨⟨withId (setField body "recommendationCount" (Value.vInt 0)) freshId, ?_, ?_⟩, rfl⟩
  · simp [Hardened.createProduct, h]
  · rw [getField_withId_ne (by decide), getField_setField_self]

/-- C1 witness: the amended claim evaluated at a concrete body that
tries to smuggle in `recommendationCount = 7`. -/
theorem c1_witness :
    truthy (getField
        [("userEmail", Value.vStr "a@x.com"), ("recommendationCount", Value.vInt 7)]
        "userEmail") = true
    ∧ ((∃ d, (Hardened.createProduct
          [("userEmail", Value.vStr "a@x.com"), ("recommendationCount", Value.vInt 7)]
          oidA dbEmpty).2.products = dbEmpty.products ++ [d]
        ∧ getField d "recommendationCount" = some (Value.vInt 0))
      ∧ (Earlier.createProduct
          [("userEmail", Value.vStr "a@x.com"), ("recommendationCount", Value.vInt 7)]
          oidA dbEmpty).2.products
        = dbEmpty.products ++ [withId
            [("userEmail", Value.vStr "a@x.com"), ("recommendationCount", Value.vInt 7)]
            oidA]) :=
  ⟨by decide,
    c1_theorem
      [("userEmail", Value.vStr "a@x.com"), ("recommendationCount", Value.vInt 7)]
      oidA dbEmpty (by decide)⟩

/-! ## Claim C4 -/

/-- C4 counterexample: the earlier variant of GET `/products/:id`
(`src/index.js` lines 48-58) builds `new ObjectId(id)` inside the try
block with no prior validity check, so a malformed id surfaces as the
generic storage fault (HTTP 500), not as InvalidInput (HTTP 400). -/
theorem c4_counterexample :
    Earlier.getProduct "not-a-valid-id" dbEmpty = Response.serverError
    ∧ ¬(Earlier.getProduct "not-a-valid-id" dbEmpty
        = Response.badRequest "Invalid product ID") := by
  exact ⟨by decide, by decide⟩

/-- C4 (amended): in the hardened variant, getProduct on a malformed id
yields InvalidInput (HTTP 400) before any store query; in the earlier
variant the malformed id propagates into a caught storage fault
(HTTP 500). -/
theorem c4_theorem (id : String) (db : DB) (h : isValidObjectId id = false) :
    Hardened.getProduct id db = Response.badRequest "Invalid product ID"
    ∧ Earlier.getProduct id db = Response.serverError := by
  constructor
  · simp [Hardened.getProduct, h]
  · simp [Earlier.getProduct, h]

/-- C4 witness: the amended claim at the concrete malformed id. -/
theorem c4_witness :
    isValidObjectId "zzz" = false
    ∧ (Hardened.getProduct "zzz" dbEmpty = Response.badRequest "Invalid product ID"
      ∧ Earlier.getProduct "zzz" dbEmpty = Response.serverError) :=
  ⟨by decide, c4_theorem "zzz" dbEmpty (by decide)⟩

/-! ## Claim C8 -/

/-- C8 counterexample: the earlier variant of POST `/recommendations`
(`src/index.js` line 119) inserts the request body verbatim: the stored
`queryId` stays a raw string (not an ObjectId) and no `createdAt`
timestamp is added. -/
theorem c8_counterexample :
    (Earlier.createRecommendation
        [("queryId", Value.vStr oidA), ("recommenderEmail", Value.vStr "b@x.com")]
        oidB dbEmpty).2.recommendations
      = [[("queryId", Value.vStr oidA), ("recommenderEmail", Value.vStr "b@x.com"),
          ("_id", Value.vOid oidB)]]
    ∧ getField
        [("queryId", Value.vStr oidA), ("recommenderEmail", Value.vStr "b@x.com"),
          ("_id", Value.vOid oidB)] "queryId"
      = some (Value.vStr oidA)
    ∧ ¬(getField
        [("queryId", Value.vStr oidA), ("recommenderEmail", Value.vStr "b@x.com"),
          ("_id", Value.vOid oidB)] "queryId"
      = some (Value.vOid oidA))
    ∧ getField
        [("queryId", Value.vStr oidA), ("recommenderEmail", Value.vStr "b@x.com"),
          ("_id", Value.vOid oidB)] "createdAt"
      = none := by
  exact ⟨by decide, by decide, by decide, by decide⟩

/-- C8 (amended): in the hardened variant, every successful
createRecommendation inserts the document with `queryId` normalized to
the identity type (`Value.vOid`) and `createdAt` set to the insertion
time; the earlier variant inserts the raw body with neither. -/
theorem c8_theorem (body : Doc) (freshId : String) (now : Nat) (db : DB) (s : String)
    (hq : getField body "queryId" = some (Value.vStr s))
    (hv : isValidObjectId s = true) :
    (∃ r, (Hardened.createRecommendation body freshId now db).2.recommendations
        = db.recommendations ++ [r]
      ∧ getField r "queryId" = some (Value.vOid s)
      ∧ getField r "createdAt" = some (Value.vDate now))
    ∧ (Earlier.createRecommendation body freshId db).2.recommendations
        = db.recommendations ++ [withId body freshId] := by
  constructor
  · refine ⟨withId (setField (setField body "queryId" (Value.vOid s))
        "createdAt" (Value.vDate now)) freshId, ?_, ?_, ?_⟩
    · rw [hardened_createRecommendation_success body freshId now db s hq hv]
    · rw [getField_withId_ne (by decide),
        getField_setField_ne (show ¬("queryId" : String) = "createdAt" by decide),
        getField_setField_self]
    · rw [getField_withId_ne (by decide), getField_setField_self]
  · rw [earlier_createRecommendation_success body freshId db s hq hv]

/-- C8 witness: the amended claim at a concrete recommendation body. -/
theorem c8_witness :
    getField [("queryId", Value.vStr oidA), ("recommenderEmail", Value.vStr "b@x.com")]
        "queryId" = some (Value.vStr oidA)
    ∧ isValidObjectId oidA = true
    ∧ ((∃ r, (Hardened.createRecommendation
          [("queryId", Value.vStr oidA), ("recommenderEmail", Value.vStr "b@x.com")]
          oidB 5 dbEmpty).2.recommendations
        = dbEmpty.recommendations ++ [r]
      ∧ getField r "queryId" = some (Value.vOid oidA)
      ∧ getField r "createdAt" = some (Value.vDate 5))
    ∧ (Earlier.createRecommendation
          [("queryId", Value.vStr oidA), ("recommenderEmail", Value.vStr "b@x.com")]
          oidB dbEmpty).2.recommendations
        = dbEmpty.recommendations ++ [withId
            [("queryId", Value.vStr oidA), ("recommenderEmail", Value.vStr "b@x.com")]
            oidB]) :=
  ⟨by decide, by decide,
    c8_theorem
      [("queryId", Value.vStr oidA), ("recommenderEmail", Value.vStr "b@x.com")]
      oidB 5 dbEmpty oidA (by decide) (by decide)⟩

/-! ## Concrete fixtures for witnesses -/

/-- A stored product owned by `a@x.com` with counter 0. -/
def prodA : Doc :=
  [("_id", Value.vOid oidA), ("userEmail", Value.vStr "a@x.com"),
    ("productName", Value.vStr "Widget"), ("recommendationCount", Value.vInt 0)]

/-- A store holding only `prodA`. -/
def dbA : DB := { products := [prodA], recommendations := [] }

/-- A recommendation request body from `b@x.com` targeting `prodA`. -/
def recBodyB : Doc :=
  [("queryId", Value.vStr oidA), ("recommenderEmail", Value.vStr "b@x.com"),
    ("recommendationText", Value.vStr "avoid")]

/-- `prodA` with its counter already at 1. -/
def prodA1 : Doc :=
  [("_id", Value.vOid oidA), ("userEmail", Value.vStr "a@x.com"),
    ("productName", Value.vStr "Widget"), ("recommendationCount", Value.vInt 1)]

/-- A stored (hardened-style) recommendation on `prodA`. -/
def recStored : Doc :=
  [("queryId", Value.vOid oidA), ("recommenderEmail", Value.vStr "b@x.com"),
    ("recommendationText", Value.vStr "avoid"), ("createdAt", Value.vDate 5),
    ("_id", Value.vOid oidB)]

/-- A store holding `prodA1` and the recommendation referencing it. -/
def dbA1 : DB := { products := [prodA1], recommendations := [recStored] }

/-! ## Claim C2 -/

/-- C2: a successful createRecommendation with `queryId` naming product
P appends the recommendation document and leaves the first product
matching that id with `recommendationCount` equal to its prior value
plus 1 — in both route sets. -/
theorem c2_theorem (body : Doc) (freshId : String) (now : Nat) (db : DB) (s : String)
    (P : Doc) (n : Int)
    (hq : getField body "queryId" = some (Value.vStr s))
    (hv : isValidObjectId s = true)
    (hP : db.products.find? (fun d => docHasId d s) = some P)
    (hc : getField P "recommendationCount" = some (Value.vInt n)) :
    (∃ r P1, (Hardened.createRecommendation body freshId now db).2.recommendations
          = db.recommendations ++ [r]
        ∧ (Hardened.createRecommendation body freshId now db).2.products.find?
            (fun d => docHasId d s) = some P1
        ∧ getField P1 "recommendationCount" = some (Value.vInt (n + 1)))
    ∧ (∃ r P1, (Earlier.createRecommendation body freshId db).2.recommendations
          = db.recommendations ++ [r]
        ∧ (Earlier.createRecommendation body freshId db).2.products.find?
            (fun d => docHasId d s) = some P1
        ∧ getField P1 "recommendationCount" = some (Value.vInt (n + 1))) := by
  have hpres : ∀ x, docHasId x s = true →
      docHasId (applyInc x "recommendationCount" 1) s = true := by
    intro x hx
    rw [docHasId_applyInc (by decide)]
    exact hx
  have hfind := find?_updateFirst hpres hP
  have hcount := getField_applyInc hc 1
  constructor
  · refine ⟨withId (setField (setField body "queryId" (Value.vOid s))
        "createdAt" (Value.vDate now)) freshId,
      applyInc P "recommendationCount" 1, ?_, ?_, hcount⟩
    · rw [hardened_createRecommendation_success body freshId now db s hq hv]
    · rw [hardened_createRecommendation_success body freshId now db s hq hv]
      exact hfind
  · refine ⟨withId body freshId, applyInc P "recommendationCount" 1, ?_, ?_, hcount⟩
    · rw [earlier_createRecommendation_success body freshId db s hq hv]
    · rw [earlier_createRecommendation_success body freshId db s hq hv]
      exact hfind

/-- C2 witness: the claim evaluated on a store holding one product with
counter 0; afterwards the first matching product carries counter 1. -/
theorem c2_witness :
    getField recBodyB "queryId" = some (Value.vStr oidA)
    ∧ isValidObjectId oidA = true
    ∧ dbA.products.find? (fun d => docHasId d oidA) = some prodA
    ∧ getField prodA "recommendationCount" = some (Value.vInt 0)
    ∧ ((∃ r P1, (Hardened.createRecommendation recBodyB oidB 5 dbA).2.recommendations
          = dbA.recommendations ++ [r]
        ∧ (Hardened.createRecommendation recBodyB oidB 5 dbA).2.products.find?
            (fun d => docHasId d oidA) = some P1
        ∧ getField P1 "recommendationCount" = some (Value.vInt (0 + 1)))
      ∧ (∃ r P1, (Earlier.createRecommendation recBodyB oidB dbA).2.recommendations
          = dbA.recommendations ++ [r]
        ∧ (Earlier.createRecommendation recBodyB oidB dbA).2.products.find?
            (fun d => docHasId d oidA) = some P1
        ∧ getField P1 "recommendationCount" = some (Value.vInt (0 + 1)))) :=
  ⟨by decide, by decide, by decide, by decide,
    c2_theorem recBodyB oidB 5 dbA oidA prodA 0 (by decide) (by decide) (by decide)
      (by decide)⟩

/-! ## Claim C3 -/

/-- C3: a successful deleteRecommendation removes exactly the found
recommendation document and leaves the first product matching the
stored `queryId` with `recommendationCount` equal to its prior value
minus 1 — in both route sets. -/
theorem c3_theorem (id : String) (db : DB) (r : Doc) (q : String) (P : Doc) (n : Int)
    (hid : isValidObjectId id = true)
    (hr : db.recommendations.find? (fun d => docHasId d id) = some r)
    (hq : newObjectId (getField r "queryId") = OidResult.oid q)
    (hP : db.products.find? (fun d => docHasId d q) = some P)
    (hc : getField P "recommendationCount" = some (Value.vInt n)) :
    (∃ l1 l2, db.recommendations = l1 ++ r :: l2
      ∧ (Hardened.deleteRecommendation id db).2.recommendations = l1 ++ l2
      ∧ (Earlier.deleteRecommendation id db).2.recommendations = l1 ++ l2)
    ∧ (∃ P1, (Hardened.deleteRecommendation id db).2.products.find?
          (fun d => docHasId d q) = some P1
        ∧ (Earlier.deleteRecommendation id db).2.products.find?
          (fun d => docHasId d q) = some P1
        ∧ getField P1 "recommendationCount" = some (Value.vInt (n - 1))) := by
  have hpres : ∀ x, docHasId x q = true →
      docHasId (applyInc x "recommendationCount" (-1)) q = true := by
    intro x hx
    rw [docHasId_applyInc (by decide)]
    exact hx
  have hfind := find?_updateFirst hpres hP
  have hcount := getField_applyInc hc (-1)
  have hsub : n + (-1) = n - 1 := by ring
  rw [hsub] at hcount
  obtain ⟨l1, l2, hsplit, _, hdel⟩ := deleteFirst_of_find?_some hr
  constructor
  · refine ⟨l1, l2, hsplit, ?_, ?_⟩
    · rw [hardened_deleteRecommendation_found id db r q hid hr hq]
      exact hdel
    · rw [earlier_deleteRecommendation_found id db r q hid hr hq]
      exact hdel
  · refine ⟨applyInc P "recommendationCount" (-1), ?_, ?_, hcount⟩
    · rw [hardened_deleteRecommendation_found id db r q hid hr hq]
      exact hfind
    · rw [earlier_deleteRecommendation_found id db r q hid hr hq]
      exact hfind

/-- C3 witness: deleting the stored recommendation of `dbA1` drops the
counter of the referenced product from 1 to 0. -/
theorem c3_witness :
    isValidObjectId oidB = true
    ∧ dbA1.recommendations.find? (fun d => docHasId d oidB) = some recStored
    ∧ newObjectId (getField recStored "queryId") = OidResult.oid oidA
    ∧ dbA1.products.find? (fun d => docHasId d oidA) = some prodA1
    ∧ getField prodA1 "recommendationCount" = some (Value.vInt 1)
    ∧ ((∃ l1 l2, dbA1.recommendations = l1 ++ recStored :: l2
      ∧ (Hardened.deleteRecommendation oidB dbA1).2.recommendations = l1 ++ l2
      ∧ (Earlier.deleteRecommendation oidB dbA1).2.recommendations = l1 ++ l2)
    ∧ (∃ P1, (Hardened.deleteRecommendation oidB dbA1).2.products.find?
          (fun d => docHasId d oidA) = some P1
        ∧ (Earlier.deleteRecommendation oidB dbA1).2.products.find?
          (fun d => docHasId d oidA) = some P1
        ∧ getField P1 "recommendationCount" = some (Value.vInt (1 - 1)))) :=
  ⟨by decide, by decide, by decide, by decide, by decide,
    c3_theorem oidB dbA1 recStored oidA prodA1 1 (by decide) (by decide) (by decide)
      (by decide) (by decide)⟩

/-! ## Claim C9 -/

/-- C9: for a valid id, deleteProduct removes at most the matching
product document — every remaining product was already stored, every
non-matching product is kept — and the recommendations collection is
left entirely unchanged (no cascade), in both route sets. -/
theorem c9_theorem (id : String) (db : DB) (hid : isValidObjectId id = true) :
    (Hardened.deleteProduct id db).2.recommendations = db.recommendations
    ∧ (∀ d ∈ (Hardened.deleteProduct id db).2.products, d ∈ db.products)
    ∧ (∀ d ∈ db.products, docHasId d id = false →
        d ∈ (Hardened.deleteProduct id db).2.products)
    ∧ Earlier.deleteProduct id db = Hardened.deleteProduct id db := by
  have hH : Hardened.deleteProduct id db
      = (.okDelete 1,
          { db with products := deleteFirst db.products (fun d => docHasId d id) }) := by
    simp [Hardened.deleteProduct, hid]
  have hE : Earlier.deleteProduct id db
      = (.okDelete 1,
          { db with products := deleteFirst db.products (fun d => docHasId d id) }) := by
    simp [Earlier.deleteProduct, hid]
  rw [hH, hE]
  refine ⟨rfl, ?_, ?_, rfl⟩
  · intro d hd
    exact mem_deleteFirst hd
  · intro d hd hne
    exact mem_deleteFirst_of_ne hd hne

/-- C9 witness: deleting the product of `dbA1` leaves its
recommendation in place. -/
theorem c9_witness :
    isValidObjectId oidA = true
    ∧ ((Hardened.deleteProduct oidA dbA1).2.recommendations = dbA1.recommendations
    ∧ (∀ d ∈ (Hardened.deleteProduct oidA dbA1).2.products, d ∈ dbA1.products)
    ∧ (∀ d ∈ dbA1.products, docHasId d oidA = false →
        d ∈ (Hardened.deleteProduct oidA dbA1).2.products)
    ∧ Earlier.deleteProduct oidA dbA1 = Hardened.deleteProduct oidA dbA1) :=
  ⟨by decide, c9_theorem oidA dbA1 (by decide)⟩

/-! ## Claim C10 -/

/-- C10: for a well-formed id with no matching recommendation, both
route sets answer NotFound and leave the whole store unchanged. -/
theorem c10_theorem (id : String) (db : DB)
    (hid : isValidObjectId id = true)
    (habs : db.recommendations.find? (fun d => docHasId d id) = none) :
    Hardened.deleteRecommendation id db
      = (Response.notFound "Recommendation not found", db)
    ∧ Earlier.deleteRecommendation id db
      = (Response.notFound "Recommendation not found", db) := by
  constructor
  · unfold Hardened.deleteRecommendation
    rw [habs]
    simp [hid]
  · unfold Earlier.deleteRecommendation
    rw [habs]
    simp [hid]

/-- C10 witness: deleting an absent recommendation id from `dbA`. -/
theorem c10_witness :
    isValidObjectId oidB = true
    ∧ dbA.recommendations.find? (fun d => docHasId d oidB) = none
    ∧ (Hardened.deleteRecommendation oidB dbA
      = (Response.notFound "Recommendation not found", dbA)
    ∧ Earlier.deleteRecommendation oidB dbA
      = (Response.notFound "Recommendation not found", dbA)) :=
  ⟨by decide, by decide, c10_theorem oidB dbA (by decide) (by decide)⟩

/-! ## Claim C5 -/

/-- C5: whatever the store holds, no record returned by the
`/myqueries/recommendations` route carries `recommenderEmail` equal to
the requesting email — self-recommendations are always excluded — in
both route sets. -/
theorem c5_theorem (email : String) (db : DB) (l : List EnrichedRec)
    (h : Hardened.myqueries (some email) db = Response.okEnriched l) :
    (∀ e ∈ l, ¬getField e.recFields "recommenderEmail" = some (Value.vStr email))
    ∧ Earlier.myqueries (some email) db = Response.okEnriched l := by
  refine ⟨?_, (myqueries_eq (some email) db).trans h⟩
  intro e he
  simp only [Hardened.myqueries] at h
  split at h
  · exact absurd h (by simp)
  · split at h
    · injection h with h2
      subst h2
      cases he
    · injection h with h2
      subst h2
      simp only [aggregatePipeline, List.mem_flatMap, List.mem_map, List.mem_filter] at he
      obtain ⟨r, ⟨_, hcond⟩, p, hp, rfl⟩ := he
      intro hcontra
      rw [projectRec_recommenderEmail] at hcontra
      rw [Bool.and_eq_true] at hcond
      have h3 := hcond.2
      rw [hcontra] at h3
      simp at h3

/-- C5 witness: a store where `a@x.com` owns the product and both
`a@x.com` (self) and `b@x.com` recommended it; the route output is
checked to exclude the self-recommendation. -/
theorem c5_witness :
    Hardened.myqueries (some "a@x.com")
        { products := [prodA1],
          recommendations :=
            [[("queryId", Value.vOid oidA), ("recommenderEmail", Value.vStr "a@x.com"),
                ("_id", Value.vOid oidB)],
              recStored] }
      = Response.okEnriched [projectRec recStored prodA1]
    ∧ ((∀ e ∈ [projectRec recStored prodA1],
          ¬getField e.recFields "recommenderEmail" = some (Value.vStr "a@x.com"))
      ∧ Earlier.myqueries (some "a@x.com")
          { products := [prodA1],
            recommendations :=
              [[("queryId", Value.vOid oidA), ("recommenderEmail", Value.vStr "a@x.com"),
                  ("_id", Value.vOid oidB)],
                recStored] }
        = Response.okEnriched [projectRec recStored prodA1]) :=
  ⟨by decide,
    c5_theorem "a@x.com"
      { products := [prodA1],
        recommendations :=
          [[("queryId", Value.vOid oidA), ("recommenderEmail", Value.vStr "a@x.com"),
              ("_id", Value.vOid oidB)],
            recStored] }
      [projectRec recStored prodA1] (by decide)⟩

/-! ## Claim C6 -/

/-- C6: when the requesting user owns no products, the route answers
the empty sequence for every possible content of the recommendations
collection (the handler short-circuits before the aggregation runs) —
in both route sets. -/
theorem c6_theorem (email : String) (prods : List Doc) (recs : List Doc)
    (hne : ¬email = "")
    (hown : prods.filter
        (fun p => decide (getField p "userEmail" = some (Value.vStr email))) = []) :
    Hardened.myqueries (some email) { products := prods, recommendations := recs }
      = Response.okEnriched []
    ∧ Earlier.myqueries (some email) { products := prods, recommendations := recs }
      = Response.okEnriched [] := by
  have hH : Hardened.myqueries (some email) { products := prods, recommendations := recs }
      = Response.okEnriched [] := by
    simp only [Hardened.myqueries]
    rw [if_neg hne, hown]
    simp
  exact ⟨hH, (myqueries_eq _ _).trans hH⟩

/-- C6 witness: `c@x.com` owns nothing in a store whose recommendations
collection is nonempty; the result is still empty for that store. -/
theorem c6_witness :
    ¬("c@x.com" : String) = ""
    ∧ [prodA1].filter
        (fun p => decide (getField p "userEmail" = some (Value.vStr "c@x.com"))) = []
    ∧ (Hardened.myqueries (some "c@x.com")
        { products := [prodA1], recommendations := [recStored] }
      = Response.okEnriched []
    ∧ Earlier.myqueries (some "c@x.com")
        { products := [prodA1], recommendations := [recStored] }
      = Response.okEnriched []) :=
  ⟨by decide, by decide, c6_theorem "c@x.com" [prodA1] [recStored] (by decide) (by decide)⟩

/-! ## Claim C7 -/

/-- C7: for a valid id and a patch that does not rename the identity,
updateProduct merges the patch into the first matching document by
field-level overwrite — patched keys take the patch value, all other
keys keep their stored value — and with no matching document it
appends a new document built from the patch plus the filter identity
(upsert); both route sets agree. -/
theorem c7_theorem (id : String) (patch : Doc) (db : DB)
    (hid : isValidObjectId id = true)
    (hnodup : (patch.map Prod.fst).Nodup)
    (hnoid : ("_id" : String) ∉ patch.map Prod.fst) :
    ((∀ P, db.products.find? (fun d => docHasId d id) = some P →
        ∃ P1, (Hardened.updateProduct id patch db).2.products.find?
            (fun d => docHasId d id) = some P1
          ∧ (∀ k, k ∉ patch.map Prod.fst → getField P1 k = getField P k)
          ∧ (∀ k v, (k, v) ∈ patch → getField P1 k = some v))
    ∧ (db.products.find? (fun d => docHasId d id) = none →
        (Hardened.updateProduct id patch db).2.products
          = db.products ++ [applySet [("_id", Value.vOid id)] patch]
        ∧ (∀ k v, (k, v) ∈ patch →
            getField (applySet [("_id", Value.vOid id)] patch) k = some v)
        ∧ getField (applySet [("_id", Value.vOid id)] patch) "_id"
            = some (Value.vOid id)))
    ∧ Earlier.updateProduct id patch db = Hardened.updateProduct id patch db := by
  refine ⟨⟨?_, ?_⟩, ?_⟩
  · intro P hfind
    have hH : (Hardened.updateProduct id patch db).2.products
        = updateFirst db.products (fun d => docHasId d id) (fun d => applySet d patch) := by
      simp [Hardened.updateProduct, hid, hfind]
    have hpres : ∀ x, docHasId x id = true → docHasId (applySet x patch) id = true := by
      intro x hx
      unfold docHasId at hx ⊢
      rw [getField_applySet_not_key hnoid]
      exact hx
    refine ⟨applySet P patch, ?_, ?_, ?_⟩
    · rw [hH]
      exact find?_updateFirst hpres hfind
    · intro k hk
      exact getField_applySet_not_key hk P
    · intro k v hkv
      exact getField_applySet_key hnodup hkv P
  · intro hnone
    refine ⟨?_, ?_, ?_⟩
    · simp [Hardened.updateProduct, hid, hnone]
    · intro k v hkv
      exact getField_applySet_key hnodup hkv _
    · rw [getField_applySet_not_key hnoid, getField_cons, if_pos rfl]
  · simp [Earlier.updateProduct, Hardened.updateProduct, hid]

/-- C7 witness: patching `prodA` with a new `productName` (and, via the
upsert clause instantiated vacuously, the no-match behaviour). -/
theorem c7_witness :
    isValidObjectId oidA = true
    ∧ ([("productName", Value.vStr "Gadget")].map Prod.fst).Nodup
    ∧ ("_id" : String) ∉ [("productName", Value.vStr "Gadget")].map Prod.fst
    ∧ (((∀ P, dbA.products.find? (fun d => docHasId d oidA) = some P →
        ∃ P1, (Hardened.updateProduct oidA [("productName", Value.vStr "Gadget")]
              dbA).2.products.find?
            (fun d => docHasId d oidA) = some P1
          ∧ (∀ k, k ∉ [("productName", Value.vStr "Gadget")].map Prod.fst →
              getField P1 k = getField P k)
          ∧ (∀ k v, (k, v) ∈ [("productName", Value.vStr "Gadget")] →
              getField P1 k = some v))
    ∧ (dbA.products.find? (fun d => docHasId d oidA) = none →
        (Hardened.updateProduct oidA [("productName", Value.vStr "Gadget")]
            dbA).2.products
          = dbA.products
            ++ [applySet [("_id", Value.vOid oidA)] [("productName", Value.vStr "Gadget")]]
        ∧ (∀ k v, (k, v) ∈ [("productName", Value.vStr "Gadget")] →
            getField (applySet [("_id", Value.vOid oidA)]
              [("productName", Value.vStr "Gadget")]) k = some v)
        ∧ getField (applySet [("_id", Value.vOid oidA)]
              [("productName", Value.vStr "Gadget")]) "_id"
            = some (Value.vOid oidA)))
    ∧ Earlier.updateProduct oidA [("productName", Value.vStr "Gadget")] dbA
        = Hardened.updateProduct oidA [("productName", Value.vStr "Gadget")] dbA) :=
  ⟨by decide, by decide, by decide,
    c7_theorem oidA [("productName", Value.vStr "Gadget")] dbA (by decide) (by decide)
      (by decide)⟩

end ProductRec
